import Mathlib

/-!
# TrucoMaster — verification of the match engine against its specification

Shallow embedding of the TypeScript sources:
* `src/shared/types.ts` (shared enums / interfaces and the game rules
  `CARD_STRENGTHS`, `MANILHA_SUIT_STRENGTH`, `getManilhaValue`, `isManilha`,
  `compareCards`, `determineTrickWinner`, `getRoundPoints`,
  `hasWinningScore`, `getNextRoundValue`),
* the game-state transition helpers (`processPlayedCard`, `evaluateTrick`,
  `finishRound`, `processTrucoRequest`, `acceptTrucoRequest`,
  `declineTrucoRequest`, `assignTeams`),
* the server `TrucoGame` class of `src/server/storage.ts`
  (`playCard`, `removePlayer`, `resetGame`, `markPlayerDisconnected`,
  `reconnectPlayer`).

JavaScript idioms are translated explicitly: `Array.findIndex` followed by
indexing becomes `jsFind` (returning the index and the element), `Array.find`
becomes `List.find?`, `splice(i, 1)` becomes `List.eraseIdx`, machine `number`
scores become `Nat`, nullable fields become `Option`, and `Map` fields of the
class become insertion-ordered association lists.
-/

namespace Truco

/-- Card suits (`Suit` in types.ts). -/
inductive Suit where
  | hearts | spades | diamonds | clubs
deriving DecidableEq, Repr

/-- Card face values (`CardValue` in types.ts): A 2 3 4 5 6 7 Q J K. -/
inductive CardValue where
  | ace | two | three | four | five | six | seven | queen | jack | king
deriving DecidableEq, Repr

/-- A card (`Card` in types.ts).  The optional `rank` / `isManilha` fields are
dynamic annotations written by `updateManilhas`. -/
structure Card where
  suit : Suit
  value : CardValue
  id : String
  rank : Option Nat := none
  isManilhaTag : Option Bool := none
deriving DecidableEq, Repr

/-- Team labels (`'A' | 'B'` in types.ts). -/
inductive Team where
  | A | B
deriving DecidableEq, Repr

/-- A seated player (`Player` in types.ts), plus the `isDisconnected`
flag that `storage.ts` adds to player objects (absent = `false`). -/
structure Player where
  id : String
  username : String
  hand : List Card
  isDealer : Bool
  team : Team
  isReady : Bool
  isYourTurn : Bool
  isDisconnected : Bool := false
deriving DecidableEq, Repr

/-- Round state machine labels (`RoundState` in types.ts). -/
inductive RoundState where
  | WAITING_FOR_PLAYERS | DEALING | PLAYING | ROUND_OVER | GAME_OVER
deriving DecidableEq, Repr

/-- Game mode (`GameMode` in types.ts). -/
inductive GameMode where
  | ONE_VS_ONE | TWO_VS_TWO
deriving DecidableEq, Repr

/-- A card played into a trick (`PlayedCard` in types.ts). -/
structure PlayedCard where
  playerId : String
  card : Card
  timestamp : Nat
deriving DecidableEq, Repr

/-- The full match state (`GameState` in types.ts). -/
structure GameState where
  id : String
  mode : GameMode
  roundState : RoundState
  players : List Player
  currentTrick : List PlayedCard
  tricks : List (List PlayedCard)
  vira : Option Card
  teamAScore : Nat
  teamBScore : Nat
  roundValue : Nat
  dealer : String
  currentPlayer : String
  winner : Option Team
  trucoRequested : Bool
  trucoRequestedBy : Option String
  roundWinner : Option Team
deriving DecidableEq, Repr

/-! ## Rank model (`CARD_STRENGTHS`, `MANILHA_SUIT_STRENGTH`, comparisons) -/

/-- `CARD_STRENGTHS` of gameRules: 3 > 2 > A > K > J > Q > 7 > 6 > 5 > 4. -/
def CARD_STRENGTHS : CardValue → Nat
  | .three => 10
  | .two => 9
  | .ace => 8
  | .king => 7
  | .jack => 6
  | .queen => 5
  | .seven => 4
  | .six => 3
  | .five => 2
  | .four => 1

/-- `MANILHA_SUIT_STRENGTH`: clubs > hearts > spades > diamonds. -/
def MANILHA_SUIT_STRENGTH : Suit → Nat
  | .clubs => 4
  | .hearts => 3
  | .spades => 2
  | .diamonds => 1

/-- `getManilhaValue(vira)`: the cyclic successor of the vira's face value
(Paulista rule). -/
def getManilhaValue : Option Card → Option CardValue
  | none => none
  | some vira =>
    match vira.value with
    | .ace => some .two
    | .two => some .three
    | .three => some .four
    | .four => some .five
    | .five => some .six
    | .six => some .seven
    | .seven => some .queen
    | .queen => some .jack
    | .jack => some .king
    | .king => some .ace

/-- `isManilha(card, vira)`. -/
def isManilha (card : Card) (vira : Option Card) : Bool :=
  match vira with
  | none => false
  | some _ =>
    match getManilhaValue vira with
    | none => false
    | some m => card.value = m

/-- `compareCards(card1, card2, vira)`: positive iff `card1` is stronger. -/
def compareCards (card1 card2 : Card) (vira : Option Card) : Int :=
  let card1IsManilha := isManilha card1 vira
  let card2IsManilha := isManilha card2 vira
  if card1IsManilha ∧ card2IsManilha then
    (MANILHA_SUIT_STRENGTH card1.suit : Int) - MANILHA_SUIT_STRENGTH card2.suit
  else if card1IsManilha then 1
  else if card2IsManilha then -1
  else (CARD_STRENGTHS card1.value : Int) - CARD_STRENGTHS card2.value

/-- One step of `determineTrickWinner`'s loop: the running winner is replaced
exactly when the newly examined entry's card compares strictly greater. -/
def pickWinner (vira : Option Card) (acc cur : PlayedCard) : PlayedCard :=
  if 0 < compareCards cur.card acc.card vira then cur else acc

/-- `determineTrickWinner(playedCards, vira)`: `null` on the empty trick,
otherwise the left fold of the loop starting from the first entry. -/
def determineTrickWinner (playedCards : List PlayedCard) (vira : Option Card) :
    Option String :=
  match playedCards with
  | [] => none
  | e :: rest => some ((rest.foldl (pickWinner vira) e).playerId)

/-- `getRoundPoints(roundValue)` (identity on {1,3,6,9,12}, default 1). -/
def getRoundPoints : Nat → Nat
  | 1 => 1
  | 3 => 3
  | 6 => 6
  | 9 => 9
  | 12 => 12
  | _ => 1

/-- `hasWinningScore(score)`: score ≥ 12. -/
def hasWinningScore (score : Nat) : Bool := 12 ≤ score

/-- `getNextRoundValue(currentValue)`: the escalation ladder switch, whose
`default` branch returns 3. -/
def getNextRoundValue : Nat → Nat
  | 1 => 3
  | 3 => 6
  | 6 => 9
  | 9 => 12
  | _ => 3

/-! ## Effective strength: an abbreviation used only in theorem statements.

`compareCards` compares two cards exactly as the comparison of this single
numeric strength: a manilha is worth `10 + suit strength`, any other card its
face strength. -/

/-- The effective numeric strength of a card under a given vira. -/
def strengthAgainst (vira : Option Card) (c : Card) : Nat :=
  if isManilha c vira then 10 + MANILHA_SUIT_STRENGTH c.suit
  else CARD_STRENGTHS c.value

theorem CARD_STRENGTHS_le_ten (v : CardValue) : CARD_STRENGTHS v ≤ 10 := by
  cases v <;> simp [CARD_STRENGTHS]

theorem MANILHA_SUIT_STRENGTH_pos (s : Suit) : 1 ≤ MANILHA_SUIT_STRENGTH s := by
  cases s <;> simp [MANILHA_SUIT_STRENGTH]

theorem compareCards_pos_iff (c1 c2 : Card) (vira : Option Card) :
    0 < compareCards c1 c2 vira ↔
      strengthAgainst vira c2 < strengthAgainst vira c1 := by
  unfold compareCards strengthAgainst
  rcases h1 : isManilha c1 vira <;> rcases h2 : isManilha c2 vira <;>
    simp [h1, h2] <;>
  · have hb1 := CARD_STRENGTHS_le_ten c1.value
    have hb2 := CARD_STRENGTHS_le_ten c2.value
    have hs1 := MANILHA_SUIT_STRENGTH_pos c1.suit
    have hs2 := MANILHA_SUIT_STRENGTH_pos c2.suit
    omega

theorem compareCards_eq_zero_iff (c1 c2 : Card) (vira : Option Card) :
    compareCards c1 c2 vira = 0 ↔
      strengthAgainst vira c1 = strengthAgainst vira c2 := by
  unfold compareCards strengthAgainst
  rcases h1 : isManilha c1 vira <;> rcases h2 : isManilha c2 vira <;>
    simp [h1, h2] <;>
  · have hb1 := CARD_STRENGTHS_le_ten c1.value
    have hb2 := CARD_STRENGTHS_le_ten c2.value
    have hs1 := MANILHA_SUIT_STRENGTH_pos c1.suit
    have hs2 := MANILHA_SUIT_STRENGTH_pos c2.suit
    omega

theorem compareCards_neg_iff (c1 c2 : Card) (vira : Option Card) :
    compareCards c1 c2 vira < 0 ↔
      strengthAgainst vira c1 < strengthAgainst vira c2 := by
  have hp1 := compareCards_pos_iff c1 c2 vira
  have hz := compareCards_eq_zero_iff c1 c2 vira
  omega

/-! ## Lemmas about the `determineTrickWinner` fold -/

theorem foldl_pickWinner_mem (vira : Option Card) (rest : List PlayedCard)
    (e : PlayedCard) : rest.foldl (pickWinner vira) e ∈ e :: rest := by
  induction rest generalizing e with
  | nil => simp
  | cons c rest ih =>
    simp only [List.foldl_cons]
    have hmem := ih (pickWinner vira e c)
    have hpick : pickWinner vira e c = e ∨ pickWinner vira e c = c := by
      unfold pickWinner; split <;> simp
    rcases List.mem_cons.mp hmem with h | h
    · rw [h]
      rcases hpick with hp | hp <;> rw [hp] <;> simp
    · simp [h]

theorem foldl_pickWinner_max (vira : Option Card) (rest : List PlayedCard)
    (e x : PlayedCard) (hx : x ∈ e :: rest) :
    strengthAgainst vira x.card ≤
      strengthAgainst vira ((rest.foldl (pickWinner vira) e).card) := by
  induction rest generalizing e x with
  | nil =>
    simp only [List.mem_singleton] at hx
    subst hx; simp
  | cons c rest ih =>
    simp only [List.foldl_cons]
    have hleft : strengthAgainst vira e.card ≤
        strengthAgainst vira ((pickWinner vira e c).card) := by
      unfold pickWinner; split
      · next h => exact le_of_lt ((compareCards_pos_iff _ _ _).mp h)
      · exact le_refl _
    have hright : strengthAgainst vira c.card ≤
        strengthAgainst vira ((pickWinner vira e c).card) := by
      unfold pickWinner; split
      · exact le_refl _
      · next h =>
        by_contra hlt
        exact h ((compareCards_pos_iff _ _ _).mpr (by omega))
    have hrec := ih (pickWinner vira e c) (pickWinner vira e c)
      (List.mem_cons_self _ _)
    rcases List.mem_cons.mp hx with h | h
    · subst h; exact le_trans hleft hrec
    · rcases List.mem_cons.mp h with h2 | h2
      · subst h2; exact le_trans hright hrec
      · exact ih (pickWinner vira e c) x (List.mem_cons_of_mem _ h2)

/-! ## Claim C1 -/

/-- Sample cards used in concrete evaluations: two threes (non-trump when the
vira is a four of clubs, which makes fives trump). -/
def threeHearts : Card := { suit := .hearts, value := .three, id := "c3h" }

def threeSpades : Card := { suit := .spades, value := .three, id := "c3s" }

def viraFourClubs : Card := { suit := .clubs, value := .four, id := "c4c" }

/-- C1 counterexample: `compareCards` is not a strict total order on the deck
— the three of hearts and the three of spades are distinct cards, neither is
trump when the vira is the four of clubs (trump face is five), and
`compareCards` returns 0 (a tie): suit does NOT break face ties between
distinct non-trump cards. -/
theorem compareCards_ties_distinct_nontrumps :
    threeHearts ≠ threeSpades ∧
    isManilha threeHearts (some viraFourClubs) = false ∧
    isManilha threeSpades (some viraFourClubs) = false ∧
    compareCards threeHearts threeSpades (some viraFourClubs) = 0 := by
  decide

/-- C1 (amended): `compareCards` compares two cards exactly as their effective
strengths compare (a trump is worth 10 plus its fixed suit strength, a
non-trump its fixed face strength): the result is positive, zero, or negative
exactly when the first card's strength is greater, equal, or smaller.  Suit
strengths and face strengths are each injective, so a trump always beats a
non-trump, two distinct trumps never tie, and the only ties between distinct
cards are two non-trump cards of the same face — for those, suit does not
break the tie. -/
theorem compareCards_strength_characterization :
    (∀ c1 c2 : Card, ∀ vira : Option Card,
      (0 < compareCards c1 c2 vira ↔
        strengthAgainst vira c2 < strengthAgainst vira c1) ∧
      (compareCards c1 c2 vira = 0 ↔
        strengthAgainst vira c1 = strengthAgainst vira c2) ∧
      (compareCards c1 c2 vira < 0 ↔
        strengthAgainst vira c1 < strengthAgainst vira c2)) ∧
    (∀ s1 s2 : Suit, MANILHA_SUIT_STRENGTH s1 = MANILHA_SUIT_STRENGTH s2 ↔
      s1 = s2) ∧
    (∀ v1 v2 : CardValue, CARD_STRENGTHS v1 = CARD_STRENGTHS v2 ↔ v1 = v2) := by
  refine ⟨fun c1 c2 vira => ⟨compareCards_pos_iff c1 c2 vira,
    compareCards_eq_zero_iff c1 c2 vira, compareCards_neg_iff c1 c2 vira⟩,
    ?_, ?_⟩
  · intro s1 s2; cases s1 <;> cases s2 <;> simp [MANILHA_SUIT_STRENGTH]
  · intro v1 v2; cases v1 <;> cases v2 <;> simp [CARD_STRENGTHS]

/-! ## Claim C3 -/

/-- Two trick entries holding the two tying threes. -/
def entryAlice : PlayedCard :=
  { playerId := "alice", card := threeHearts, timestamp := 0 }

def entryBob : PlayedCard :=
  { playerId := "bob", card := threeSpades, timestamp := 1 }

/-- C3 counterexample: `determineTrickWinner` is not invariant under
permutations of the trick entries.  With the four of clubs turned (so neither
three is trump), the trick [alice: 3♥, bob: 3♠] is won by alice, but its
permutation [bob: 3♠, alice: 3♥] is won by bob: on tying cards the function
keeps the earlier entry, so collection order matters. -/
theorem determineTrickWinner_order_dependent :
    ([entryAlice, entryBob]).Perm [entryBob, entryAlice] ∧
    determineTrickWinner [entryAlice, entryBob] (some viraFourClubs) =
      some "alice" ∧
    determineTrickWinner [entryBob, entryAlice] (some viraFourClubs) =
      some "bob" := by
  exact ⟨List.Perm.swap entryBob entryAlice [], by decide, by decide⟩

/-- C3 (amended): `determineTrickWinner` is invariant to the order the trick
entries were collected in provided no two entries' cards tie under
`compareCards` (which holds for every trick actually drawn from one 40-card
deck containing at most one non-trump card per face — but not in general). -/
theorem determineTrickWinner_perm_invariant (l l' : List PlayedCard)
    (vira : Option Card) (hperm : l.Perm l')
    (hnotie : l.Pairwise (fun a b => compareCards a.card b.card vira ≠ 0)) :
    determineTrickWinner l vira = determineTrickWinner l' vira := by
  cases l with
  | nil =>
    have : l' = [] := hperm.nil_eq.symm
    subst this; rfl
  | cons e rest =>
    cases l' with
    | nil => exact absurd hperm.symm.nil_eq (by simp)
    | cons e' rest' =>
      have hwmem : rest.foldl (pickWinner vira) e ∈ e :: rest :=
        foldl_pickWinner_mem vira rest e
      have hw'mem : rest'.foldl (pickWinner vira) e' ∈ e' :: rest' :=
        foldl_pickWinner_mem vira rest' e'
      have hw'mem_l : rest'.foldl (pickWinner vira) e' ∈ e :: rest :=
        hperm.symm.subset hw'mem
      have hwmem_l' : rest.foldl (pickWinner vira) e ∈ e' :: rest' :=
        hperm.subset hwmem
      have h1 := foldl_pickWinner_max vira rest e _ hw'mem_l
      have h2 := foldl_pickWinner_max vira rest' e' _ hwmem_l'
      have heq : strengthAgainst vira ((rest.foldl (pickWinner vira) e).card) =
          strengthAgainst vira ((rest'.foldl (pickWinner vira) e').card) :=
        le_antisymm h2 h1
      by_cases hww : rest.foldl (pickWinner vira) e =
          rest'.foldl (pickWinner vira) e'
      · simp only [determineTrickWinner, hww]
      · exfalso
        have hsymm : Symmetric
            (fun a b : PlayedCard => compareCards a.card b.card vira ≠ 0) := by
          intro a b hab h0
          exact hab ((compareCards_eq_zero_iff _ _ _).mpr
            (((compareCards_eq_zero_iff _ _ _).mp h0).symm))
        have hR := (hnotie.forall hsymm) hwmem hw'mem_l hww
        exact hR ((compareCards_eq_zero_iff _ _ _).mpr heq)

/-- A third entry whose card (king of spades, strength 7) does not tie either
three (strength 10). -/
def entryCarol : PlayedCard :=
  { playerId := "carol",
    card := { suit := .spades, value := .king, id := "cks" }, timestamp := 2 }

/-- Witness for the amended C3 theorem: on the tie-free trick
[alice: 3♥, carol: K♠] and its swap, the winner coincides. -/
theorem determineTrickWinner_perm_invariant_witness :
    determineTrickWinner [entryAlice, entryCarol] (some viraFourClubs) =
      determineTrickWinner [entryCarol, entryAlice] (some viraFourClubs) :=
  determineTrickWinner_perm_invariant _ _ _
    (List.Perm.swap entryCarol entryAlice []) (by decide)

/-! ## JavaScript array-search idiom

`jsFind p l` models `const i = l.findIndex(p); const x = l[i];` — `none` when
`findIndex` returns −1, otherwise the index together with the found element. -/

def jsFind (p : α → Bool) : List α → Option (Nat × α)
  | [] => none
  | a :: as => if p a then some (0, a)
               else (jsFind p as).map (fun ia => (ia.1 + 1, ia.2))

theorem jsFind_eq_none_iff (p : α → Bool) (l : List α) :
    jsFind p l = none ↔ ∀ a ∈ l, p a = false := by
  induction l with
  | nil => simp [jsFind]
  | cons a as ih =>
    by_cases h : p a <;> simp [jsFind, h, ih]

theorem jsFind_some (p : α → Bool) (l : List α) (i : Nat) (a : α)
    (h : jsFind p l = some (i, a)) :
    l.get? i = some a ∧ p a = true ∧ i < l.length := by
  induction l generalizing i with
  | nil => simp [jsFind] at h
  | cons b bs ih =>
    by_cases hb : p b
    · simp [jsFind, hb] at h
      obtain ⟨h1, h2⟩ := h
      subst h1; subst h2
      simpa using hb
    · simp [jsFind, hb] at h
      match hbs : jsFind p bs with
      | none => rw [hbs] at h; simp at h
      | some (j, c) =>
        rw [hbs] at h
        simp at h
        obtain ⟨k, ⟨hjk, hca⟩, hki⟩ := h
        subst hca
        have hres := ih j hbs
        have hij : i = j + 1 := by omega
        subst hij
        simpa using hres

theorem jsFind_find? (p : α → Bool) (l : List α) (i : Nat) (a : α)
    (h : jsFind p l = some (i, a)) : l.find? p = some a := by
  induction l generalizing i with
  | nil => simp [jsFind] at h
  | cons b bs ih =>
    by_cases hb : p b
    · simp [jsFind, hb] at h
      simp [List.find?, hb, h.2.symm]
    · simp [jsFind, hb] at h
      match hbs : jsFind p bs with
      | none => rw [hbs] at h; simp at h
      | some (j, c) =>
        rw [hbs] at h
        simp at h
        obtain ⟨k, ⟨hjk, hca⟩, hki⟩ := h
        subst hca
        simp [List.find?, hb]
        exact ih j hbs

/-! ## Match state machine (the `gameUtils` transition helpers) -/

/-- The team of the seat that won one trick: `determineTrickWinner` followed
by `players.find(p => p.id === winnerId)` and `.team` (the
`winner?.team === 'A'` idiom of `evaluateTrick` / `finishRound`). -/
def winnerTeamOfTrick (players : List Player) (vira : Option Card)
    (trick : List PlayedCard) : Option Team :=
  match determineTrickWinner trick vira with
  | none => none
  | some wid => (players.find? (fun p => p.id == wid)).map (fun p => p.team)

/-- The `tricks.filter(...).length` tally of tricks won by team `t`. -/
def countTeamTricks (players : List Player) (vira : Option Card)
    (tricks : List (List PlayedCard)) (t : Team) : Nat :=
  (tricks.filter
    (fun trick => winnerTeamOfTrick players vira trick == some t)).length

/-- `finishRound(gameState, tricks)`: tally trick wins, decide the round
winner (dealer's team on a tie), award `getRoundPoints(roundValue)`, check the
winning score, advance the dealer one seat (via `findIndex`, −1 when absent),
clear hands and per-round fields. -/
def finishRound (s : GameState) (tricks : List (List PlayedCard)) :
    GameState :=
  let teamATricks := countTeamTricks s.players s.vira tricks Team.A
  let teamBTricks := countTeamTricks s.players s.vira tricks Team.B
  let roundWinner : Option Team :=
    if teamBTricks < teamATricks then some Team.A
    else if teamATricks < teamBTricks then some Team.B
    else (s.players.find? (fun p => p.id == s.dealer)).map (fun p => p.team)
  let teamAScore := if roundWinner = some Team.A then
      s.teamAScore + getRoundPoints s.roundValue else s.teamAScore
  let teamBScore := if roundWinner = some Team.B then
      s.teamBScore + getRoundPoints s.roundValue else s.teamBScore
  let winner : Option Team :=
    if hasWinningScore teamAScore then some Team.A
    else if hasWinningScore teamBScore then some Team.B
    else none
  let dealerIdx : Int :=
    match jsFind (fun p => p.id == s.dealer) s.players with
    | some ia => (ia.1 : Int)
    | none => -1
  let nextDealerIndex : Nat :=
    ((dealerIdx + 1) % (s.players.length : Int)).toNat
  let nextDealerId :=
    ((s.players.get? nextDealerIndex).map (fun p => p.id)).getD ""
  let updatedPlayers := s.players.map (fun p =>
    { p with
      isDealer := p.id == nextDealerId, isYourTurn := false,
      hand := ([] : List Card) })
  { s with
    players := updatedPlayers,
    teamAScore := teamAScore, teamBScore := teamBScore,
    roundState := if winner.isSome then RoundState.GAME_OVER
                  else RoundState.ROUND_OVER,
    winner := winner, roundWinner := roundWinner,
    currentTrick := [], tricks := [], roundValue := 1,
    dealer := nextDealerId,
    trucoRequested := false, trucoRequestedBy := none }

/-- `evaluateTrick(gameState)`: resolve the full current trick, append it to
the history, finish the round when 3 tricks were played or a team reached 2
trick wins, otherwise start a new trick led by the trick winner. -/
def evaluateTrick (s : GameState) : GameState :=
  match determineTrickWinner s.currentTrick s.vira with
  | none => s
  | some trickWinnerId =>
    match s.players.find? (fun p => p.id == trickWinnerId) with
    | none => s
    | some _ =>
      let updatedTricks := s.tricks ++ [s.currentTrick]
      let teamATricks := countTeamTricks s.players s.vira updatedTricks Team.A
      let teamBTricks := countTeamTricks s.players s.vira updatedTricks Team.B
      if updatedTricks.length = 3 ∨ 2 ≤ teamATricks ∨ 2 ≤ teamBTricks then
        finishRound s updatedTricks
      else
        { s with
          players := s.players.map (fun p =>
            { p with isYourTurn := p.id == trickWinnerId }),
          currentPlayer := trickWinnerId,
          currentTrick := [], tricks := updatedTricks }

/-- `processPlayedCard(gameState, playerId, cardId)`: silently returns the
state unchanged when the player is not seated or the card is not in their
hand; otherwise removes the card from the hand (`splice`), appends it to the
current trick (`Date.now()` is passed in as `now`), and either evaluates the
full trick or passes the turn to the next seat in table order. -/
def processPlayedCard (s : GameState) (playerId cardId : String) (now : Nat) :
    GameState :=
  match jsFind (fun p => p.id == playerId) s.players with
  | none => s
  | some (playerIndex, player) =>
    match jsFind (fun c => c.id == cardId) player.hand with
    | none => s
    | some (cardIndex, card) =>
      let updatedPlayer := { player with
        hand := player.hand.eraseIdx cardIndex, isYourTurn := false }
      let updatedPlayers := s.players.set playerIndex updatedPlayer
      let playedCard : PlayedCard :=
        { playerId := playerId, card := card, timestamp := now }
      let updatedTrick := s.currentTrick ++ [playedCard]
      let nextState :=
        { s with players := updatedPlayers, currentTrick := updatedTrick }
      if updatedTrick.length = s.players.length then
        evaluateTrick nextState
      else
        let nextPlayerIndex := (playerIndex + 1) % s.players.length
        let nextPlayerId :=
          ((s.players.get? nextPlayerIndex).map (fun p => p.id)).getD ""
        { nextState with
          players := nextState.players.map (fun p =>
            { p with isYourTurn := p.id == nextPlayerId }),
          currentPlayer := nextPlayerId }

/-- `processTrucoRequest(gameState, playerId)`: no-op when a request is
already outstanding or the requester is not seated; otherwise records the
pending request.  Note: the round value is not consulted — a request is also
recorded when the stake already sits at 12. -/
def processTrucoRequest (s : GameState) (playerId : String) : GameState :=
  if s.trucoRequested then s
  else match s.players.find? (fun p => p.id == playerId) with
    | none => s
    | some _ =>
      { s with trucoRequested := true, trucoRequestedBy := some playerId }

/-- `acceptTrucoRequest(gameState)`: guard `!trucoRequested ||
!trucoRequestedBy` (JS string truthiness: `null` and `""` both falsy), then
the inline escalation switch whose `default` branch yields 3 — the same
mapping as `getNextRoundValue`. -/
def acceptTrucoRequest (s : GameState) : GameState :=
  match s.trucoRequestedBy with
  | none => s
  | some rid =>
    if s.trucoRequested = false ∨ rid = "" then s
    else match s.players.find? (fun p => p.id == rid) with
      | none => s
      | some _ =>
        let nextRoundValue : Nat :=
          match s.roundValue with
          | 1 => 3
          | 3 => 6
          | 6 => 9
          | 9 => 12
          | _ => 3
        { s with
          trucoRequested := false, trucoRequestedBy := none,
          roundValue := nextRoundValue }

/-- `declineTrucoRequest(gameState)`: the requester's team wins the round at
the current stake; scores, winner check, dealer advance and the clearing of
hands and per-round fields mirror `finishRound`, with no trick evaluation. -/
def declineTrucoRequest (s : GameState) : GameState :=
  match s.trucoRequestedBy with
  | none => s
  | some rid =>
    if s.trucoRequested = false ∨ rid = "" then s
    else match s.players.find? (fun p => p.id == rid) with
      | none => s
      | some requestingPlayer =>
        let winningTeam := requestingPlayer.team
        let teamAScore := if winningTeam = Team.A then
            s.teamAScore + getRoundPoints s.roundValue else s.teamAScore
        let teamBScore := if winningTeam = Team.A then s.teamBScore
            else s.teamBScore + getRoundPoints s.roundValue
        let winner : Option Team :=
          if hasWinningScore teamAScore then some Team.A
          else if hasWinningScore teamBScore then some Team.B
          else none
        let dealerIdx : Int :=
          match jsFind (fun p => p.id == s.dealer) s.players with
          | some ia => (ia.1 : Int)
          | none => -1
        let nextDealerIndex : Nat :=
          ((dealerIdx + 1) % (s.players.length : Int)).toNat
        let nextDealerId :=
          ((s.players.get? nextDealerIndex).map (fun p => p.id)).getD ""
        let updatedPlayers := s.players.map (fun p =>
          { p with
            isDealer := p.id == nextDealerId, isYourTurn := false,
            hand := ([] : List Card) })
        { s with
          players := updatedPlayers,
          teamAScore := teamAScore, teamBScore := teamBScore,
          roundState := if winner.isSome then RoundState.GAME_OVER
                        else RoundState.ROUND_OVER,
          winner := winner, roundWinner := some winningTeam,
          currentTrick := [], tricks := [], roundValue := 1,
          dealer := nextDealerId,
          trucoRequested := false, trucoRequestedBy := none }

/-- `assignTeams(players, mode)`: 1v1 — first joiner team A, second team B;
2v2 — even join positions team A, odd team B. -/
def assignTeams (players : List Player) (mode : GameMode) : List Player :=
  match mode with
  | .ONE_VS_ONE =>
    players.mapIdx (fun i p =>
      if i = 0 then { p with team := Team.A }
      else if i = 1 then { p with team := Team.B }
      else p)
  | .TWO_VS_TWO =>
    players.mapIdx (fun i p =>
      if i % 2 = 0 then { p with team := Team.A }
      else { p with team := Team.B })

/-! ## The server `TrucoGame` class of `storage.ts`

The class's mutable fields become a record; each method becomes a function
from the record to a new record.  The `Map` fields are insertion-ordered
association lists, with `Map.set` / `Map.delete` / first-match iteration
modelled by `assocSet` / `filter` / `lookupByName`. -/

structure ServerGame where
  gameState : GameState
  playerNames : List (String × String)
  disconnectedPlayers : List (String × String)
deriving DecidableEq, Repr

/-- `Map.set`: replace the value at an existing key, else append. -/
def assocSet : List (String × String) → String → String →
    List (String × String)
  | [], k, v => [(k, v)]
  | (k', v') :: rest, k, v =>
    if k' == k then (k, v) :: rest else (k', v') :: assocSet rest k v

/-- First map entry whose value equals `uname` (the reconnection lookup loop
over `disconnectedPlayers.entries()`). -/
def lookupByName : List (String × String) → String → Option String
  | [], _ => none
  | (pid, nm) :: rest, uname =>
    if nm == uname then some pid else lookupByName rest uname

/-- `TrucoGame.resetGame()`: keeps the seats, clears hands, flags, scores and
every per-round field, returning to `WAITING_FOR_PLAYERS` with seat 0 as
dealer. -/
def resetGame (g : ServerGame) : ServerGame :=
  let firstId : Option String :=
    (g.gameState.players.head?).map (fun p => p.id)
  let updatedPlayers := g.gameState.players.map (fun p =>
    { p with
      hand := ([] : List Card), isReady := false, isYourTurn := false,
      isDealer := firstId == some p.id })
  { g with gameState := { g.gameState with
      players := updatedPlayers,
      roundState := RoundState.WAITING_FOR_PLAYERS,
      currentTrick := [], tricks := [], vira := none,
      teamAScore := 0, teamBScore := 0, roundValue := 1,
      dealer := firstId.getD "", currentPlayer := "",
      winner := none, trucoRequested := false, trucoRequestedBy := none,
      roundWinner := none } }

/-- `TrucoGame.removePlayer(playerId)`: unknown seat — no-op; match in
progress (`roundState !== WAITING_FOR_PLAYERS`) — `resetGame()` and return
(the seat is NOT filtered out in this branch); otherwise drop the seat,
repair the dealer pointer and reassign teams. -/
def removePlayer (g : ServerGame) (playerId : String) : ServerGame :=
  match jsFind (fun p => p.id == playerId) g.gameState.players with
  | none => g
  | some _ =>
    if g.gameState.roundState ≠ RoundState.WAITING_FOR_PLAYERS then
      resetGame g
    else
      let updatedPlayers :=
        g.gameState.players.filter (fun p => ¬ (p.id == playerId))
      let dealer :=
        if g.gameState.dealer = playerId ∧ 0 < updatedPlayers.length then
          ((updatedPlayers.head?).map (fun p => p.id)).getD g.gameState.dealer
        else g.gameState.dealer
      let playersWithTeams := assignTeams updatedPlayers g.gameState.mode
      { g with gameState := { g.gameState with
          players := playersWithTeams, dealer := dealer } }

/-- `TrucoGame.markPlayerDisconnected(playerId)`: record the username in the
`disconnectedPlayers` map; while `PLAYING` only set the seat's
`isDisconnected` flag; in every other round state call `removePlayer`. -/
def markPlayerDisconnected (g : ServerGame) (playerId : String) : ServerGame :=
  let g1 :=
    match g.gameState.players.find? (fun p => p.id == playerId) with
    | some player =>
      { g with disconnectedPlayers :=
          assocSet g.disconnectedPlayers playerId player.username }
    | none => g
  if g1.gameState.roundState = RoundState.PLAYING then
    { g1 with gameState := { g1.gameState with
        players := g1.gameState.players.map (fun p =>
          if p.id == playerId then { p with isDisconnected := true } else p) } }
  else removePlayer g1 playerId

/-- `TrucoGame.reconnectPlayer(socketId, username)`: look the username up in
the disconnected map; on a hit, rebind every seat with that username to the
new socket id, rewrite the current-player, dealer and pending-truco pointers
that referenced the old id, and update both bookkeeping maps — all in one
state assignment.  Returns whether a rebind happened. -/
def reconnectPlayer (g : ServerGame) (socketId username : String) :
    ServerGame × Bool :=
  match lookupByName g.disconnectedPlayers username with
  | none => (g, false)
  | some foundPlayerId =>
    let updatedPlayers := g.gameState.players.map (fun p =>
      if p.username == username then
        { p with id := socketId, isDisconnected := false }
      else p)
    let currentPlayer :=
      if g.gameState.currentPlayer == foundPlayerId then socketId
      else g.gameState.currentPlayer
    let dealer :=
      if g.gameState.dealer == foundPlayerId then socketId
      else g.gameState.dealer
    let trucoRequestedBy :=
      if g.gameState.trucoRequestedBy == some foundPlayerId then some socketId
      else g.gameState.trucoRequestedBy
    ({ g with
        gameState := { g.gameState with
          players := updatedPlayers, currentPlayer := currentPlayer,
          dealer := dealer, trucoRequestedBy := trucoRequestedBy },
        disconnectedPlayers :=
          g.disconnectedPlayers.filter (fun e => ¬ (e.1 == foundPlayerId)),
        playerNames := assocSet
          (g.playerNames.filter (fun e => ¬ (e.1 == foundPlayerId)))
          socketId username },
      true)

/-- `TrucoGame.playCard(playerId, cardId)`: turn guard, then
`processPlayedCard`. -/
def ServerGame.playCard (g : ServerGame) (playerId cardId : String)
    (now : Nat) : ServerGame :=
  if g.gameState.currentPlayer ≠ playerId then g
  else { g with gameState := processPlayedCard g.gameState playerId cardId now }

/-! ## Concrete fixtures used by counterexamples and witnesses -/

/-- Five of clubs: the strongest trump when the vira is the four of clubs. -/
def sampleCard1 : Card := { suit := .clubs, value := .five, id := "k1" }

def sampleCard2 : Card := { suit := .hearts, value := .king, id := "k2" }

def samplePlayer1 : Player :=
  { id := "p1", username := "ana", hand := [sampleCard1], isDealer := true,
    team := Team.A, isReady := true, isYourTurn := true }

def samplePlayer2 : Player :=
  { id := "p2", username := "bia", hand := [sampleCard2], isDealer := false,
    team := Team.B, isReady := true, isYourTurn := false }

/-- A mid-round 1v1 state: stake already at 12 with a pending truco request
by p2, scores 3 : 1, p1 dealing and holding the turn. -/
def sampleState : GameState :=
  { id := "g1", mode := .ONE_VS_ONE, roundState := .PLAYING,
    players := [samplePlayer1, samplePlayer2], currentTrick := [],
    tricks := [], vira := some viraFourClubs, teamAScore := 3, teamBScore := 1,
    roundValue := 12, dealer := "p1", currentPlayer := "p1", winner := none,
    trucoRequested := true, trucoRequestedBy := some "p2",
    roundWinner := none }

/-- The same table between rounds (`ROUND_OVER`, no pending request). -/
def sampleServerRoundOver : ServerGame :=
  { gameState := { sampleState with
      roundState := .ROUND_OVER,
      trucoRequested := false, trucoRequestedBy := none },
    playerNames := [("p1", "ana"), ("p2", "bia")],
    disconnectedPlayers := [] }

/-- The same table mid-`PLAYING` (no pending request). -/
def sampleServerPlaying : ServerGame :=
  { gameState := { sampleState with
      trucoRequested := false, trucoRequestedBy := none },
    playerNames := [("p1", "ana"), ("p2", "bia")],
    disconnectedPlayers := [] }

/-- `sampleServerPlaying` after p1's transport dropped: the seat is flagged
disconnected and recorded in the disconnected-players map. -/
def sampleServerDisc : ServerGame :=
  { gameState := { sampleServerPlaying.gameState with
      players :=
        [{ samplePlayer1 with isDisconnected := true }, samplePlayer2] },
    playerNames := [("p1", "ana"), ("p2", "bia")],
    disconnectedPlayers := [("p1", "ana")] }

/-! ## Claim C2 -/

/-- C2: the engine does NOT defend the top of the stake ladder.  In a
reachable mid-round state with `roundValue = 12`, a further truco request is
still recorded (`processTrucoRequest` never consults the stake), and
accepting it routes `12` through the escalation switch's `default` branch —
`getNextRoundValue 12 = 3` — so the stake DROPS from 12 to 3 inside the
round, contradicting both the {1,3,6,9,12}-monotonicity invariant and the
required defensive rejection. -/
theorem stake_twelve_not_rejected :
    getNextRoundValue 12 = 3 ∧
    sampleState.roundValue = 12 ∧
    sampleState.trucoRequested = true ∧
    (acceptTrucoRequest sampleState).roundValue = 3 ∧
    (processTrucoRequest { sampleState with
        trucoRequested := false, trucoRequestedBy := none }
      "p1").trucoRequested = true := by
  decide

/-! ## Claim C10 -/

/-- C10: `acceptTrucoRequest` changes only the stake value and the two
pending-request fields.  For every state (whether or not a request is
outstanding), the players (hence every hand and flag), both team scores, the
current trick, the trick history, the vira, the dealer pointer, the
current-player pointer, the round state, the game winner and the round winner
are returned unchanged. -/
theorem acceptTruco_frame (s : GameState) :
    (acceptTrucoRequest s).id = s.id ∧
    (acceptTrucoRequest s).mode = s.mode ∧
    (acceptTrucoRequest s).roundState = s.roundState ∧
    (acceptTrucoRequest s).players = s.players ∧
    (acceptTrucoRequest s).currentTrick = s.currentTrick ∧
    (acceptTrucoRequest s).tricks = s.tricks ∧
    (acceptTrucoRequest s).vira = s.vira ∧
    (acceptTrucoRequest s).teamAScore = s.teamAScore ∧
    (acceptTrucoRequest s).teamBScore = s.teamBScore ∧
    (acceptTrucoRequest s).dealer = s.dealer ∧
    (acceptTrucoRequest s).currentPlayer = s.currentPlayer ∧
    (acceptTrucoRequest s).winner = s.winner ∧
    (acceptTrucoRequest s).roundWinner = s.roundWinner := by
  cases h : s.trucoRequestedBy with
  | none => simp [acceptTrucoRequest, h]
  | some rid =>
    by_cases hreq : s.trucoRequested = false ∨ rid = ""
    · simp [acceptTrucoRequest, h, hreq]
    · cases hfind : s.players.find? (fun p => p.id == rid) <;>
        simp [acceptTrucoRequest, h, hreq, hfind]

/-! ## Claim C8 -/

/-- C8: a play-card intent naming a player that is not seated, or a card that
is not in the acting player's hand, is a silent no-op: `processPlayedCard`
returns the state unchanged, and so does the `playCard` method wrapping it.
(The embedding is a total function, mirroring that the TypeScript early
returns mean no exception can escape into the transport layer.) -/
theorem playCard_unknown_noop (g : ServerGame) (playerId cardId : String)
    (now : Nat)
    (h : ∀ p ∈ g.gameState.players, p.id = playerId →
      ∀ c ∈ p.hand, c.id ≠ cardId) :
    processPlayedCard g.gameState playerId cardId now = g.gameState ∧
    ServerGame.playCard g playerId cardId now = g := by
  have hmain : processPlayedCard g.gameState playerId cardId now =
      g.gameState := by
    unfold processPlayedCard
    match hf : jsFind (fun p => p.id == playerId) g.gameState.players with
    | none => rw [hf]
    | some (pi, player) =>
      obtain ⟨hget, hp, _⟩ := jsFind_some _ _ _ _ hf
      have hmem : player ∈ g.gameState.players := List.get?_mem hget
      have hpid : player.id = playerId := by simpa using hp
      have hcard : ∀ c ∈ player.hand, c.id ≠ cardId := h player hmem hpid
      match hfc : jsFind (fun c => c.id == cardId) player.hand with
      | none => simp only [hf, hfc]
      | some (ci, card) =>
        obtain ⟨hgetc, hc, _⟩ := jsFind_some _ _ _ _ hfc
        exact absurd (by simpa using hc) (hcard card (List.get?_mem hgetc))
  refine ⟨hmain, ?_⟩
  unfold ServerGame.playCard
  split
  · rfl
  · rw [hmain]

/-- Witness for C8 at a concrete input: "ghost" is not seated in
`sampleServerPlaying`, so the play-card intent leaves the state unchanged. -/
theorem playCard_unknown_noop_witness :
    processPlayedCard sampleServerPlaying.gameState "ghost" "k1" 0 =
      sampleServerPlaying.gameState ∧
    ServerGame.playCard sampleServerPlaying "ghost" "k1" 0 =
      sampleServerPlaying :=
  playCard_unknown_noop sampleServerPlaying "ghost" "k1" 0 (by decide)

/-! ## Claim C6 -/

/-- C6 counterexample: a transport drop during `ROUND_OVER` does NOT merely
mark the seat disconnected.  `markPlayerDisconnected` only takes the
mark-but-keep branch when the round state is `PLAYING`; at `ROUND_OVER` it
falls through to `removePlayer`, which resets the match: the team scores are
zeroed (3 → 0 here), hands are cleared, and no seat carries the
disconnected flag. -/
theorem markDisconnected_roundOver_not_preserved :
    sampleServerRoundOver.gameState.roundState = RoundState.ROUND_OVER ∧
    sampleServerRoundOver.gameState.teamAScore = 3 ∧
    (markPlayerDisconnected sampleServerRoundOver "p1").gameState.teamAScore
      = 0 ∧
    (∀ p ∈ (markPlayerDisconnected
        sampleServerRoundOver "p1").gameState.players,
      p.isDisconnected = false ∧ p.hand = []) := by
  decide

/-- C6 (amended): only for a transport drop while the round state is
`PLAYING` does the engine mark the seat disconnected without vacating it:
the players list is the old list with just the dropped seat's
`isDisconnected` flag set (so its hand and turn flag are untouched and no
seat is removed), and every other game-state field — scores included — is
returned unchanged.  (A drop during `ROUND_OVER` or `DEALING` instead resets
the match.) -/
theorem markDisconnected_playing_frame (g : ServerGame) (playerId : String)
    (h : g.gameState.roundState = RoundState.PLAYING) :
    (markPlayerDisconnected g playerId).gameState.players =
      g.gameState.players.map (fun p =>
        if p.id == playerId then { p with isDisconnected := true } else p) ∧
    (markPlayerDisconnected g playerId).gameState.id = g.gameState.id ∧
    (markPlayerDisconnected g playerId).gameState.mode = g.gameState.mode ∧
    (markPlayerDisconnected g playerId).gameState.roundState =
      g.gameState.roundState ∧
    (markPlayerDisconnected g playerId).gameState.currentTrick =
      g.gameState.currentTrick ∧
    (markPlayerDisconnected g playerId).gameState.tricks =
      g.gameState.tricks ∧
    (markPlayerDisconnected g playerId).gameState.vira = g.gameState.vira ∧
    (markPlayerDisconnected g playerId).gameState.teamAScore =
      g.gameState.teamAScore ∧
    (markPlayerDisconnected g playerId).gameState.teamBScore =
      g.gameState.teamBScore ∧
    (markPlayerDisconnected g playerId).gameState.roundValue =
      g.gameState.roundValue ∧
    (markPlayerDisconnected g playerId).gameState.dealer =
      g.gameState.dealer ∧
    (markPlayerDisconnected g playerId).gameState.currentPlayer =
      g.gameState.currentPlayer ∧
    (markPlayerDisconnected g playerId).gameState.winner =
      g.gameState.winner ∧
    (markPlayerDisconnected g playerId).gameState.trucoRequested =
      g.gameState.trucoRequested ∧
    (markPlayerDisconnected g playerId).gameState.trucoRequestedBy =
      g.gameState.trucoRequestedBy ∧
    (markPlayerDisconnected g playerId).gameState.roundWinner =
      g.gameState.roundWinner := by
  cases hfind : g.gameState.players.find? (fun p => p.id == playerId) <;>
    simp [markPlayerDisconnected, hfind, h]

/-- Witness for the amended C6 theorem: dropping p1 from the concrete
mid-`PLAYING` table only flags their seat. -/
theorem markDisconnected_playing_frame_witness :
    sampleServerPlaying.gameState.roundState = RoundState.PLAYING ∧
    (markPlayerDisconnected sampleServerPlaying "p1").gameState.players =
      sampleServerPlaying.gameState.players.map (fun p =>
        if p.id == "p1" then { p with isDisconnected := true } else p) ∧
    (markPlayerDisconnected sampleServerPlaying "p1").gameState.teamAScore =
      sampleServerPlaying.gameState.teamAScore :=
  ⟨rfl, (markDisconnected_playing_frame sampleServerPlaying "p1" rfl).1,
    (markDisconnected_playing_frame sampleServerPlaying "p1" rfl).2.2.2.2.2.2.2.1⟩

/-! ## Claim C9 -/

/-- C9 counterexample: an explicit leave by a seated player while the match
is active does NOT vacate the seat.  In the concrete mid-`PLAYING` 1v1 table,
`removePlayer` on p1 takes the reset branch and returns before filtering, so
the players list still contains both seats, p1 included. -/
theorem removePlayer_retains_departing_seat :
    sampleServerPlaying.gameState.roundState = RoundState.PLAYING ∧
    sampleServerPlaying.gameState.players.map (fun p => p.id) =
      ["p1", "p2"] ∧
    (removePlayer sampleServerPlaying "p1").gameState.players.map
      (fun p => p.id) = ["p1", "p2"] := by
  decide

/-- C9 (amended): an explicit leave by a seated player while the match is
active (round state not `WAITING_FOR_PLAYERS`) resets the match — scores
zeroed, hands cleared, back to `WAITING_FOR_PLAYERS` — but retains every
seat, the departing player's included: `removePlayer` equals `resetGame` in
this case and the seat ids are unchanged. -/
theorem removePlayer_active_resets (g : ServerGame) (playerId : String)
    (hseated : (jsFind (fun p => p.id == playerId)
      g.gameState.players).isSome = true)
    (hactive : g.gameState.roundState ≠ RoundState.WAITING_FOR_PLAYERS) :
    removePlayer g playerId = resetGame g ∧
    (removePlayer g playerId).gameState.players.map (fun p => p.id) =
      g.gameState.players.map (fun p => p.id) ∧
    (removePlayer g playerId).gameState.roundState =
      RoundState.WAITING_FOR_PLAYERS ∧
    (removePlayer g playerId).gameState.teamAScore = 0 ∧
    (removePlayer g playerId).gameState.teamBScore = 0 ∧
    (∀ p ∈ (removePlayer g playerId).gameState.players, p.hand = []) := by
  have hmain : removePlayer g playerId = resetGame g := by
    unfold removePlayer
    match hf : jsFind (fun p => p.id == playerId) g.gameState.players with
    | none => rw [hf] at hseated; simp at hseated
    | some ia => simp only [hf]; simp [hactive]
  refine ⟨hmain, ?_, ?_, ?_, ?_, ?_⟩ <;> rw [hmain]
  · simp [resetGame, List.map_map]
  · simp [resetGame]
  · simp [resetGame]
  · simp [resetGame]
  · intro p hp
    simp [resetGame, List.mem_map] at hp
    obtain ⟨q, hq, rfl⟩ := hp
    rfl

/-- Witness for the amended C9 theorem: p1 leaving the concrete
mid-`PLAYING` table resets the match and keeps both seats. -/
theorem removePlayer_active_resets_witness :
    (jsFind (fun p => p.id == "p1")
      sampleServerPlaying.gameState.players).isSome = true ∧
    sampleServerPlaying.gameState.roundState ≠
      RoundState.WAITING_FOR_PLAYERS ∧
    removePlayer sampleServerPlaying "p1" = resetGame sampleServerPlaying ∧
    (removePlayer sampleServerPlaying "p1").gameState.players.map
      (fun p => p.id) =
      sampleServerPlaying.gameState.players.map (fun p => p.id) :=
  ⟨by decide, by decide,
    (removePlayer_active_resets sampleServerPlaying "p1" (by decide)
      (by decide)).1,
    (removePlayer_active_resets sampleServerPlaying "p1" (by decide)
      (by decide)).2.1⟩

/-! ## Claim C7 -/

/-- C7: reconnecting with the display name of a disconnected seat (the name
resolves in the disconnected map to that seat's old connection id, and within
the match that name identifies exactly that seat) rebinds the seat to the new
connection id in one state update: the players list is the old list with just
that seat's id replaced and its disconnected flag cleared (hand, turn flag
and every other seat field preserved), and each of the current-turn pointer,
the dealer pointer and the outstanding escalation requester is rewritten to
the new id exactly when it referenced the old id; scores, tricks and the rest
of the state are unchanged, and the call reports success. -/
theorem reconnectPlayer_rebinds (g : ServerGame)
    (socketId username oldId : String)
    (hlook : lookupByName g.disconnectedPlayers username = some oldId)
    (hname : ∀ p ∈ g.gameState.players,
      (p.username = username ↔ p.id = oldId)) :
    (reconnectPlayer g socketId username).2 = true ∧
    (reconnectPlayer g socketId username).1.gameState.players =
      g.gameState.players.map (fun p =>
        if p.id = oldId then
          { p with id := socketId, isDisconnected := false }
        else p) ∧
    (reconnectPlayer g socketId username).1.gameState.currentPlayer =
      (if g.gameState.currentPlayer = oldId then socketId
       else g.gameState.currentPlayer) ∧
    (reconnectPlayer g socketId username).1.gameState.dealer =
      (if g.gameState.dealer = oldId then socketId
       else g.gameState.dealer) ∧
    (reconnectPlayer g socketId username).1.gameState.trucoRequestedBy =
      (if g.gameState.trucoRequestedBy = some oldId then some socketId
       else g.gameState.trucoRequestedBy) ∧
    (reconnectPlayer g socketId username).1.gameState.roundState =
      g.gameState.roundState ∧
    (reconnectPlayer g socketId username).1.gameState.currentTrick =
      g.gameState.currentTrick ∧
    (reconnectPlayer g socketId username).1.gameState.tricks =
      g.gameState.tricks ∧
    (reconnectPlayer g socketId username).1.gameState.vira =
      g.gameState.vira ∧
    (reconnectPlayer g socketId username).1.gameState.teamAScore =
      g.gameState.teamAScore ∧
    (reconnectPlayer g socketId username).1.gameState.teamBScore =
      g.gameState.teamBScore ∧
    (reconnectPlayer g socketId username).1.gameState.roundValue =
      g.gameState.roundValue ∧
    (reconnectPlayer g socketId username).1.gameState.winner =
      g.gameState.winner ∧
    (reconnectPlayer g socketId username).1.gameState.roundWinner =
      g.gameState.roundWinner ∧
    (reconnectPlayer g socketId username).1.gameState.trucoRequested =
      g.gameState.trucoRequested := by
  simp only [reconnectPlayer, hlook]
  refine ⟨trivial, ?_, ?_, ?_, ?_, trivial, trivial, trivial, trivial,
    trivial, trivial, trivial, trivial, trivial, trivial⟩
  · apply List.map_congr_left
    intro p hp
    by_cases hid : p.id = oldId
    · have hu : p.username = username := (hname p hp).mpr hid
      simp [hid, hu]
    · have hu : p.username ≠ username := fun hc => hid ((hname p hp).mp hc)
      simp [hid, hu]
  · by_cases hc : g.gameState.currentPlayer = oldId <;> simp [hc]
  · by_cases hc : g.gameState.dealer = oldId <;> simp [hc]
  · by_cases hc : g.gameState.trucoRequestedBy = some oldId <;> simp [hc]

/-- Witness for C7: on the concrete table where p1 ("ana") dropped
mid-`PLAYING` while holding the turn, reconnecting as "ana" on socket
"sock9" succeeds, rewrites the seat and the current-turn pointer to "sock9",
and keeps the one-card hand. -/
theorem reconnectPlayer_rebinds_witness :
    lookupByName sampleServerDisc.disconnectedPlayers "ana" = some "p1" ∧
    (reconnectPlayer sampleServerDisc "sock9" "ana").2 = true ∧
    (reconnectPlayer sampleServerDisc "sock9" "ana").1.gameState.players =
      sampleServerDisc.gameState.players.map (fun p =>
        if p.id = "p1" then
          { p with id := "sock9", isDisconnected := false }
        else p) ∧
    (reconnectPlayer
        sampleServerDisc "sock9" "ana").1.gameState.currentPlayer =
      (if sampleServerDisc.gameState.currentPlayer = "p1" then "sock9"
       else sampleServerDisc.gameState.currentPlayer) :=
  ⟨rfl,
    (reconnectPlayer_rebinds sampleServerDisc "sock9" "ana" "p1" rfl
      (by decide)).1,
    (reconnectPlayer_rebinds sampleServerDisc "sock9" "ana" "p1" rfl
      (by decide)).2.1,
    (reconnectPlayer_rebinds sampleServerDisc "sock9" "ana" "p1" rfl
      (by decide)).2.2.1⟩

/-! ## Claim C4 -/

theorem getRoundPoints_eq_self (v : Nat)
    (hv : v = 1 ∨ v = 3 ∨ v = 6 ∨ v = 9 ∨ v = 12) : getRoundPoints v = v := by
  rcases hv with h | h | h | h | h <;> subst h <;> rfl

theorem nextDealer_toNat (i n : Nat) :
    (((i : Int) + 1) % (n : Int)).toNat = (i + 1) % n := by
  rw [show ((i : Int) + 1) = ((i + 1 : Nat) : Int) by push_cast; ring]
  rw [← Int.natCast_mod]
  exact Int.toNat_natCast _

/-- The round winner `finishRound` computes, in terms of the trick tallies
and the dealer's seat: the team with more trick wins, the dealer's team on a
tie. -/
def roundWinnerSpec (s : GameState) (tricks : List (List PlayedCard))
    (dp : Player) : Team :=
  if countTeamTricks s.players s.vira tricks Team.B <
      countTeamTricks s.players s.vira tricks Team.A then Team.A
  else if countTeamTricks s.players s.vira tricks Team.A <
      countTeamTricks s.players s.vira tricks Team.B then Team.B
  else dp.team

/-- The round-winning team's score after the stake award. -/
def winningScoreAfter (s : GameState) (w : Team) : Nat :=
  (if w = Team.A then s.teamAScore else s.teamBScore) + s.roundValue

set_option maxHeartbeats 1600000 in
/-- C4: for a completed round of a running match (both scores below 12, the
stake on the {1,3,6,9,12} ladder, the dealer seated at index `i`),
`finishRound` awards the round's stake value to the team with more trick
wins (the dealer's team on a tie), reaches `GAME_OVER` with that team
recorded as winner exactly when its updated score is at least 12 (overshoot
allowed) and `ROUND_OVER` with no winner otherwise, advances the dealer
pointer to the seat at index `(i+1) mod n`, and clears all hands, turn
flags and per-round transient fields regardless of outcome. -/
theorem finishRound_spec (s : GameState) (tricks : List (List PlayedCard))
    (i : Nat) (dp : Player)
    (hd : jsFind (fun p => p.id == s.dealer) s.players = some (i, dp))
    (hA : s.teamAScore < 12) (hB : s.teamBScore < 12)
    (hv : s.roundValue = 1 ∨ s.roundValue = 3 ∨ s.roundValue = 6 ∨
      s.roundValue = 9 ∨ s.roundValue = 12) :
    (finishRound s tricks).roundWinner =
      some (roundWinnerSpec s tricks dp) ∧
    (finishRound s tricks).teamAScore =
      (if roundWinnerSpec s tricks dp = Team.A then
        s.teamAScore + s.roundValue else s.teamAScore) ∧
    (finishRound s tricks).teamBScore =
      (if roundWinnerSpec s tricks dp = Team.B then
        s.teamBScore + s.roundValue else s.teamBScore) ∧
    ((finishRound s tricks).roundState = RoundState.GAME_OVER ↔
      12 ≤ winningScoreAfter s (roundWinnerSpec s tricks dp)) ∧
    ((finishRound s tricks).roundState = RoundState.GAME_OVER ∨
      (finishRound s tricks).roundState = RoundState.ROUND_OVER) ∧
    (finishRound s tricks).winner =
      (if 12 ≤ winningScoreAfter s (roundWinnerSpec s tricks dp) then
        some (roundWinnerSpec s tricks dp) else none) ∧
    (finishRound s tricks).dealer =
      ((s.players.get? ((i + 1) % s.players.length)).map
        (fun p => p.id)).getD "" ∧
    (∀ p ∈ (finishRound s tricks).players,
      p.hand = [] ∧ p.isYourTurn = false) ∧
    (finishRound s tricks).currentTrick = [] ∧
    (finishRound s tricks).tricks = [] ∧
    (finishRound s tricks).roundValue = 1 ∧
    (finishRound s tricks).trucoRequested = false ∧
    (finishRound s tricks).trucoRequestedBy = none := by
  have hfind : s.players.find? (fun p => p.id == s.dealer) = some dp :=
    jsFind_find? _ _ _ _ hd
  have hpts := getRoundPoints_eq_self s.roundValue hv
  have htoNat := nextDealer_toNat i s.players.length
  unfold finishRound roundWinnerSpec winningScoreAfter
  rw [hd, hfind]
  simp only [htoNat, hpts, hasWinningScore, Option.map_some',
    decide_eq_true_eq]
  clear hd hfind htoNat hpts hv
  refine ⟨?_, ?_, ?_, ?_, ?_, ?_, trivial, ?_, trivial, trivial, trivial,
    trivial, trivial⟩
  case refine_7 =>
    intro p hp
    simp only [List.mem_map] at hp
    obtain ⟨q, hq, rfl⟩ := hp
    exact ⟨rfl, rfl⟩
  all_goals (
    revert hA hB
    generalize countTeamTricks s.players s.vira tricks Team.A = A
    generalize countTeamTricks s.players s.vira tricks Team.B = B
    generalize s.teamAScore = sa
    generalize s.teamBScore = sb
    generalize s.roundValue = v
    intro hA hB
    rcases (show dp.team = Team.A ∨ dp.team = Team.B by
      cases dp.team <;> simp) with ht | ht <;>
      rw [ht] <;> split_ifs <;> simp_all <;> omega)

/-- Witness for C4 at a concrete completed round: the mid-`PLAYING` 1v1
table (scores 3:1, stake 12, dealer p1 at seat 0) finishing with an empty
trick history — a 0:0 tie, so the dealer's team A is awarded the stake. -/
theorem finishRound_spec_witness :
    (finishRound sampleServerPlaying.gameState []).roundWinner =
      some (roundWinnerSpec sampleServerPlaying.gameState []
        samplePlayer1) ∧
    (finishRound sampleServerPlaying.gameState []).teamAScore =
      (if roundWinnerSpec sampleServerPlaying.gameState [] samplePlayer1 =
          Team.A then
        sampleServerPlaying.gameState.teamAScore +
          sampleServerPlaying.gameState.roundValue
      else sampleServerPlaying.gameState.teamAScore) ∧
    (finishRound sampleServerPlaying.gameState []).roundValue = 1 := by
  obtain ⟨h1, h2, h3, h4, h5, h6, h7, h8, h9, h10, h11, h12, h13⟩ :=
    finishRound_spec sampleServerPlaying.gameState [] 0 samplePlayer1
      (by decide) (by decide) (by decide) (by decide)
  exact ⟨h1, h2, h11⟩

/-! ## Claim C5 -/

set_option maxHeartbeats 1600000 in
/-- C5: declining an outstanding truco request (requester `rid` seated as
`rp`, dealer seated at index `i`, scores below 12, stake on the ladder) ends
the round immediately with the requester's team as round winner: that team
is awarded the current — pre-escalation — stake value regardless of the
trick state (the current trick and history are never consulted, only
discarded), the match reaches `GAME_OVER` exactly when the awarded score
reaches 12 and `ROUND_OVER` otherwise, the dealer advances by exactly one
seat cyclically, and hands and per-round fields are cleared, exactly as an
ordinary finish-round. -/
theorem declineTruco_spec (s : GameState) (rid : String) (rp : Player)
    (i : Nat) (dp : Player)
    (hreq : s.trucoRequested = true)
    (hrid : s.trucoRequestedBy = some rid)
    (hrid' : rid ≠ "")
    (hfind : s.players.find? (fun p => p.id == rid) = some rp)
    (hd : jsFind (fun p => p.id == s.dealer) s.players = some (i, dp))
    (hA : s.teamAScore < 12) (hB : s.teamBScore < 12)
    (hv : s.roundValue = 1 ∨ s.roundValue = 3 ∨ s.roundValue = 6 ∨
      s.roundValue = 9 ∨ s.roundValue = 12) :
    (declineTrucoRequest s).roundWinner = some rp.team ∧
    (declineTrucoRequest s).teamAScore =
      (if rp.team = Team.A then s.teamAScore + s.roundValue
       else s.teamAScore) ∧
    (declineTrucoRequest s).teamBScore =
      (if rp.team = Team.A then s.teamBScore
       else s.teamBScore + s.roundValue) ∧
    ((declineTrucoRequest s).roundState = RoundState.GAME_OVER ↔
      12 ≤ winningScoreAfter s rp.team) ∧
    ((declineTrucoRequest s).roundState = RoundState.GAME_OVER ∨
      (declineTrucoRequest s).roundState = RoundState.ROUND_OVER) ∧
    (declineTrucoRequest s).winner =
      (if 12 ≤ winningScoreAfter s rp.team then some rp.team else none) ∧
    (declineTrucoRequest s).dealer =
      ((s.players.get? ((i + 1) % s.players.length)).map
        (fun p => p.id)).getD "" ∧
    (∀ p ∈ (declineTrucoRequest s).players,
      p.hand = [] ∧ p.isYourTurn = false) ∧
    (declineTrucoRequest s).currentTrick = [] ∧
    (declineTrucoRequest s).tricks = [] ∧
    (declineTrucoRequest s).roundValue = 1 ∧
    (declineTrucoRequest s).trucoRequested = false ∧
    (declineTrucoRequest s).trucoRequestedBy = none := by
  have hpts := getRoundPoints_eq_self s.roundValue hv
  have htoNat := nextDealer_toNat i s.players.length
  unfold declineTrucoRequest winningScoreAfter
  rw [hrid]
  simp only [hreq, hrid', hfind, hd, htoNat, hpts, hasWinningScore,
    decide_eq_true_eq, Option.map_some', Bool.true_eq_false, or_false,
    false_or, or_self, if_false]
  clear hd hfind htoNat hpts hv hreq hrid hrid'
  refine ⟨?_, ?_, ?_, ?_, ?_, ?_, ?_, ?_, ?_, ?_, ?_, ?_, ?_⟩
  case refine_8 =>
    intro p hp
    simp only [List.mem_map] at hp
    obtain ⟨q, hq, rfl⟩ := hp
    exact ⟨rfl, rfl⟩
  all_goals first
    | trivial
    | (revert hA hB
       generalize s.teamAScore = sa
       generalize s.teamBScore = sb
       generalize s.roundValue = v
       intro hA hB
       rcases (show rp.team = Team.A ∨ rp.team = Team.B by
         cases rp.team <;> simp) with ht | ht <;>
         rw [ht] <;> split_ifs <;> simp_all <;> omega)

/-- Witness for C5 at a concrete input: p2 (team B) requested truco on the
stake-12 table; p1's side declines, so team B is awarded 12 points
(1 → 13) and the match ends `GAME_OVER`. -/
theorem declineTruco_spec_witness :
    (declineTrucoRequest sampleState).roundWinner =
      some samplePlayer2.team ∧
    (declineTrucoRequest sampleState).teamBScore = 13 ∧
    (declineTrucoRequest sampleState).roundState =
      RoundState.GAME_OVER := by
  obtain ⟨h1, h2, h3, h4, h5, h6, h7, h8, h9, h10, h11, h12, h13⟩ :=
    declineTruco_spec sampleState "p2" samplePlayer2 0 samplePlayer1
      (by decide) (by decide) (by decide) (by decide) (by decide)
      (by decide) (by decide) (by decide)
  refine ⟨h1, ?_, ?_⟩
  · rw [h3]; decide
  · rw [h4.mpr]; decide

end Truco
